import Mathlib

/-!
Shallow embedding of the wallet-session core of `wdk-rn-core`:
the credential cache and wallet setup service (`walletSetupService.ts`),
the worklet service (`workletService.ts`), the address service
(`addressService.ts`), the balance fetcher (`useBalanceFetcher`),
and the initialization flow (`useWdkInitialization`).

JavaScript conventions are modelled explicitly: optional strings are
`Option String`, JS truthiness of a string (`""` is falsy) is `jsTruthy`,
plain-object maps are association lists with last-write-wins `set`,
and async remote calls are oracles (`Except` outcomes) passed as arguments,
with the list of storage calls issued recorded where a claim needs it.
-/

namespace Wdk

/-- JS truthiness of an optional string: `undefined`/`null` and `""` are falsy. -/
def jsTruthy : Option String → Bool
  | some v => !(v == "")
  | none => false

/-- JS `String.prototype.includes`: `pat` occurs as a substring of `s`. -/
def strContains (s pat : String) : Bool :=
  (s.splitOn pat).length != 1

/-- Association-list lookup, modelling JS `Map.get` / object property access. -/
def mapGet {α β : Type} [BEq α] (m : List (α × β)) (k : α) : Option β :=
  (m.find? (fun p => p.fst == k)).map Prod.snd

/-- Association-list update, modelling JS `Map.set` / object spread override. -/
def mapSet {α β : Type} [BEq α] (m : List (α × β)) (k : α) (v : β) : List (α × β) :=
  (k, v) :: m.filter (fun p => !(p.fst == k))

/-- Association-list removal, modelling JS `Map.delete` / rest-destructuring. -/
def mapErase {α β : Type} [BEq α] (m : List (α × β)) (k : α) : List (α × β) :=
  m.filter (fun p => !(p.fst == k))

/-- `CachedCredentials` from `walletSetupService.ts`: the per-identifier entry of
the ephemeral credential cache; every field is optional. -/
structure CachedCredentials where
  encryptionKey : Option String := none
  encryptedSeed : Option String := none
  encryptedEntropy : Option String := none
deriving DecidableEq, Repr

/-- The credential cache: `Map<string, CachedCredentials>`. -/
abbrev CredCache := List (String × CachedCredentials)

/-- `WalletSetupService.getCacheKey`: `identifier || 'default'`. -/
def getCacheKey (identifier : Option String) : String :=
  match identifier with
  | some s => if s == "" then "default" else s
  | none => "default"

/-- `WalletSetupService.cacheCredentials`: spreads the existing entry and then
each argument that is truthy (`...(encryptionKey && ⟨encryptionKey⟩)` and so on),
so a later partial update overrides a field only with a truthy value and never
erases a previously cached field. -/
def cacheCredentials (cache : CredCache) (identifier : Option String)
    (encryptionKey encryptedSeed encryptedEntropy : Option String) : CredCache :=
  let cacheKey := getCacheKey identifier
  let existing := (mapGet cache cacheKey).getD {}
  mapSet cache cacheKey
    { encryptionKey := if jsTruthy encryptionKey then encryptionKey else existing.encryptionKey
      encryptedSeed := if jsTruthy encryptedSeed then encryptedSeed else existing.encryptedSeed
      encryptedEntropy := if jsTruthy encryptedEntropy then encryptedEntropy else existing.encryptedEntropy }

/-- A sequence of `cacheCredentials` partial updates, applied in order
(each tuple is `(identifier, encryptionKey, encryptedSeed, encryptedEntropy)`). -/
def applyCacheUpdates (cache : CredCache)
    (updates : List (Option String × Option String × Option String × Option String)) : CredCache :=
  updates.foldl (fun c u => cacheCredentials c u.1 u.2.1 u.2.2.1 u.2.2.2) cache

/-- `WalletSetupService.clearCredentialsCache`: a truthy identifier deletes that
entry, otherwise the whole cache is cleared. -/
def clearCredentialsCache (cache : CredCache) (identifier : Option String) : CredCache :=
  if jsTruthy identifier then mapErase cache (getCacheKey identifier) else []

/-- The secure-storage calls `WalletSetupService` can issue. -/
inductive StorageCall where
  | getEncryptedSeed
  | getAllEncrypted
  | deleteWallet
deriving DecidableEq, Repr

/-- Resolutions of the secure-storage calls used by `loadExistingWallet`
(`null` results are `none`). -/
structure SecureStorageBehavior where
  encryptedSeedResp : Option String
  allEncryptedKeyResp : Option String
deriving DecidableEq, Repr

instance {ε α : Type} [DecidableEq ε] [DecidableEq α] : DecidableEq (Except ε α) := fun a b =>
  match a, b with
  | .ok x, .ok y => if h : x = y then isTrue (by rw [h]) else isFalse (by simp [h])
  | .error x, .error y => if h : x = y then isTrue (by rw [h]) else isFalse (by simp [h])
  | .ok _, .error _ => isFalse (by simp)
  | .error _, .ok _ => isFalse (by simp)

/-- Result of one `loadExistingWallet` run: the returned pair or the thrown
message, the secure-storage calls issued in order, and the cache afterwards. -/
structure LoadOutcome where
  result : Except String (String × String)
  calls : List StorageCall
  cache : CredCache
deriving DecidableEq, Repr

/-- Error message thrown by `loadExistingWallet` when no encryption key resolves. -/
def encryptionKeyNotFoundMsg : String :=
  "Encryption key not found. Authentication may have failed or wallet does not exist."

/-- Error message thrown by `loadExistingWallet` when no encrypted seed resolves. -/
def encryptedSeedNotFoundMsg : String :=
  "Encrypted seed not found. Authentication may have failed or wallet does not exist."

/-- Tail of `WalletSetupService.loadExistingWallet` after the seed fetch and the
encryption-key resolution: the two not-found checks (key first, then seed),
then caching and returning the pair. -/
def finishLoad (cache : CredCache) (identifier : Option String)
    (encryptionKey encryptedSeed : Option String) (calls : List StorageCall) : LoadOutcome :=
  if !(jsTruthy encryptionKey) then
    { result := .error encryptionKeyNotFoundMsg, calls := calls, cache := cache }
  else if !(jsTruthy encryptedSeed) then
    { result := .error encryptedSeedNotFoundMsg, calls := calls, cache := cache }
  else
    { result := .ok (encryptionKey.getD "", encryptedSeed.getD "")
      calls := calls
      cache := cacheCredentials cache identifier encryptionKey encryptedSeed none }

/-- `WalletSetupService.loadExistingWallet` (the cached version): return the
cached pair when both fields are cached; otherwise fetch the encrypted seed
first (no biometrics), then resolve the encryption key from the cache or, when
uncached, through the authenticated `getAllEncrypted` call, and finish with the
not-found checks. -/
def loadExistingWallet (cache : CredCache) (identifier : Option String)
    (storage : SecureStorageBehavior) : LoadOutcome :=
  let cacheKey := getCacheKey identifier
  let cached := mapGet cache cacheKey
  let cachedKey := cached.bind (fun c => c.encryptionKey)
  let cachedSeed := cached.bind (fun c => c.encryptedSeed)
  if jsTruthy cachedKey && jsTruthy cachedSeed then
    { result := .ok (cachedKey.getD "", cachedSeed.getD ""), calls := [], cache := cache }
  else
    let encryptedSeed := storage.encryptedSeedResp
    if jsTruthy cachedKey then
      finishLoad cache identifier cachedKey encryptedSeed [StorageCall.getEncryptedSeed]
    else
      let key := if jsTruthy storage.allEncryptedKeyResp then storage.allEncryptedKeyResp else none
      finishLoad cache identifier key encryptedSeed
        [StorageCall.getEncryptedSeed, StorageCall.getAllEncrypted]

/-- Result of `WalletSetupService.deleteWallet`: the storage calls issued and
the cache afterwards (the store reset is not observable here). -/
structure DeleteOutcome where
  calls : List StorageCall
  cache : CredCache
deriving DecidableEq, Repr

/-- `WalletSetupService.deleteWallet`: delete the secure-storage entry, reset
the store, and clear the credential cache for the identifier. -/
def deleteWallet (cache : CredCache) (identifier : Option String) : DeleteOutcome :=
  { calls := [StorageCall.deleteWallet]
    cache := clearCredentialsCache cache identifier }

/-- The worklet store state (`workletStore`), restricted to the fields read and
written by `WorkletService.initializeWDK` and `callAccountMethod`; the opaque
`hrpc` handle is modelled by its availability. -/
structure WorkletState where
  isWorkletStarted : Bool := false
  isInitialized : Bool := false
  isLoading : Bool := false
  hrpcAvailable : Bool := false
  encryptionKey : Option String := none
  encryptedSeed : Option String := none
  error : Option String := none
  wdkInitResult : Option String := none
deriving DecidableEq, Repr

/-- Result of `WorkletService.initializeWDK`: the returned/thrown outcome, the
store afterwards, and how many `initializeWDK` RPCs were dispatched. -/
structure InitWDKOutcome where
  result : Except String Unit
  state : WorkletState
  remoteCalls : Nat
deriving DecidableEq, Repr

/-- `WorkletService.initializeWDK`: throw unless the worklet is started with an
`hrpc` handle; return immediately when already initialized with the same
`(encryptionKey, encryptedSeed)` pair; otherwise dispatch the remote
`initializeWDK` call and commit or record its failure. The remote resolution is
the `remote` oracle. -/
def initializeWDK (st : WorkletState) (encryptionKey encryptedSeed : String)
    (remote : Except String String) : InitWDKOutcome :=
  if !(st.isWorkletStarted && st.hrpcAvailable) then
    { result := .error "Worklet must be started before initializing WDK"
      state := st, remoteCalls := 0 }
  else if st.isInitialized && st.encryptionKey == some encryptionKey
      && st.encryptedSeed == some encryptedSeed then
    { result := .ok (), state := st, remoteCalls := 0 }
  else
    let st1 := { st with error := none, isLoading := true }
    match remote with
    | .ok r =>
      { result := .ok ()
        state := { st1 with isInitialized := true, isLoading := false
                            encryptedSeed := some encryptedSeed
                            encryptionKey := some encryptionKey
                            wdkInitResult := some r, error := none }
        remoteCalls := 1 }
    | .error e =>
      { result := .error e
        state := { st1 with error := some e, isLoading := false, isInitialized := false }
        remoteCalls := 1 }

/-- `ALLOWED_ACCOUNT_METHODS` from `addressService.ts`. -/
def ALLOWED_ACCOUNT_METHODS : List String :=
  ["getAddress", "getBalance", "getTokenBalance", "signMessage", "signTransaction", "sendTransaction"]

/-- Modelled from the spec: `isValidNetworkName` lives in `src/utils/typeGuards.ts`,
which is not among the provided sources; per the spec and the error text in
`AddressService`, a valid network name is a non-empty string of alphanumeric
characters, hyphens, and underscores. -/
def isValidNetworkName (s : String) : Bool :=
  !(s == "") && s.all (fun c => c.isAlphanum || c == '-' || c == '_')

/-- Modelled from the spec: `isValidAccountIndex` lives in `src/utils/typeGuards.ts`,
which is not among the provided sources; per the spec and the error text in
`AddressService`, a valid account index is a non-negative integer. -/
def isValidAccountIndex (n : Int) : Bool :=
  decide (0 ≤ n)

/-- Result of one `callAccountMethod` call: the returned/thrown outcome and
whether the call was dispatched to the remote gateway (`hrpc.callMethod`). -/
structure MethodCallOutcome where
  result : Except String String
  remoteDispatched : Bool
deriving DecidableEq, Repr

/-- `AddressService.callAccountMethod`: validate the method name (non-empty and
in the allow-list) and the network/account-index arguments, require an
initialized session, and only then dispatch `hrpc.callMethod`. The remote
resolution is the `remote` oracle (`.ok none` is a missing `response.result`). -/
def AddressService.callAccountMethod (network : String) (accountIndex : Int)
    (methodName : String) (st : WorkletState)
    (remote : Except String (Option String)) : MethodCallOutcome :=
  -- `methodName.trim().length === 0`: every character is whitespace
  if methodName.data.all (fun c => c.isWhitespace) then
    { result := .error "methodName must be a non-empty string", remoteDispatched := false }
  else if !(ALLOWED_ACCOUNT_METHODS.contains methodName) then
    { result := .error ("Method " ++ methodName ++ " is not allowed. Allowed methods: "
        ++ String.intercalate ", " ALLOWED_ACCOUNT_METHODS)
      remoteDispatched := false }
  else if !(isValidNetworkName network) then
    { result := .error "network must be a valid network name (non-empty string with alphanumeric characters, hyphens, and underscores)"
      remoteDispatched := false }
  else if !(isValidAccountIndex accountIndex) then
    { result := .error "accountIndex must be a non-negative integer", remoteDispatched := false }
  else if !(st.isInitialized && st.hrpcAvailable) then
    { result := .error "WDK not initialized", remoteDispatched := false }
  else
    match remote with
    | .error e => { result := .error e, remoteDispatched := true }
    | .ok none =>
      { result := .error ("Method " ++ methodName ++ " returned no result")
        remoteDispatched := true }
    | .ok (some r) => { result := .ok r, remoteDispatched := true }

/-- `WorkletService.callAccountMethod` (the version in `workletService.ts`):
require an initialized session and dispatch `hrpc.callMethod` directly, with no
method-name validation of any kind. -/
def WorkletService.callAccountMethod (network : String) (accountIndex : Int)
    (methodName : String) (st : WorkletState)
    (remote : Except String (Option String)) : MethodCallOutcome :=
  if !(st.isInitialized && st.hrpcAvailable) then
    { result := .error "WDK not initialized", remoteDispatched := false }
  else
    match remote with
    | .error e => { result := .error e, remoteDispatched := true }
    | .ok none =>
      { result := .error ("Method " ++ methodName ++ " returned no result")
        remoteDispatched := true }
    | .ok (some r) => { result := .ok r, remoteDispatched := true }

/-- The wallet store state (`walletStore`), restricted to the balance fields:
`balances` is `network → accountIndex → tokenKey → balance`, `balanceLoading`
is keyed by `"network-accountIndex-tokenKey"`, and `lastBalanceUpdate` is
`network → accountIndex → timestamp`. -/
structure WalletStoreState where
  balances : List (String × List (Nat × List (String × String))) := []
  balanceLoading : List (String × Bool) := []
  lastBalanceUpdate : List (String × List (Nat × Nat)) := []
deriving DecidableEq, Repr

/-- `tokenAddress || 'native'`: the token key used in the balance maps. -/
def tokenKey (tokenAddress : Option String) : String :=
  match tokenAddress with
  | some a => if a == "" then "native" else a
  | none => "native"

/-- The `"network-accountIndex-tokenKey"` key of the `balanceLoading` map. -/
def loadingKey (network : String) (accountIndex : Nat) (tokenAddress : Option String) : String :=
  network ++ "-" ++ toString accountIndex ++ "-" ++ tokenKey tokenAddress

/-- Raw nested lookup of a recorded balance (no JS `|| null` defaulting). -/
def balancesEntry (st : WalletStoreState) (network : String) (accountIndex : Nat)
    (tokenAddress : Option String) : Option String :=
  (mapGet st.balances network).bind
    (fun pn => (mapGet pn accountIndex).bind (fun pa => mapGet pa (tokenKey tokenAddress)))

/-- Raw nested lookup of a last-balance-update timestamp. -/
def lastUpdateEntry (st : WalletStoreState) (network : String) (accountIndex : Nat) : Option Nat :=
  (mapGet st.lastBalanceUpdate network).bind (fun pn => mapGet pn accountIndex)

/-- `BalanceService.setBalanceLoading` (identical in `WorkletService`): `true`
sets the loading flag, `false` removes the key from the map entirely. -/
def setBalanceLoading (st : WalletStoreState) (network : String) (accountIndex : Nat)
    (tokenAddress : Option String) (loading : Bool) : WalletStoreState :=
  let key := loadingKey network accountIndex tokenAddress
  if loading then
    { st with balanceLoading := mapSet st.balanceLoading key true }
  else
    { st with balanceLoading := mapErase st.balanceLoading key }

/-- `BalanceService.isBalanceLoading`: the flag, defaulting to `false`. -/
def isBalanceLoading (st : WalletStoreState) (network : String) (accountIndex : Nat)
    (tokenAddress : Option String) : Bool :=
  (mapGet st.balanceLoading (loadingKey network accountIndex tokenAddress)).getD false

/-- `BalanceService.updateBalance`: a nested copy-on-write overwrite of
`balances[network][accountIndex][tokenKey]`. -/
def updateBalance (st : WalletStoreState) (accountIndex : Nat) (network : String)
    (tokenAddress : Option String) (balance : String) : WalletStoreState :=
  let tk := tokenKey tokenAddress
  let perNetwork := (mapGet st.balances network).getD []
  let perAccount := (mapGet perNetwork accountIndex).getD []
  { st with balances :=
      mapSet st.balances network (mapSet perNetwork accountIndex (mapSet perAccount tk balance)) }

/-- `BalanceService.getBalance`: nested lookup with the JS `|| null` default. -/
def getBalance (st : WalletStoreState) (accountIndex : Nat) (network : String)
    (tokenAddress : Option String) : Option String :=
  match (mapGet st.balances network).bind
      (fun perNetwork => (mapGet perNetwork accountIndex).bind
        (fun perAccount => mapGet perAccount (tokenKey tokenAddress))) with
  | some b => if b == "" then none else some b
  | none => none

/-- `BalanceService.updateLastBalanceUpdate` with the current time passed in. -/
def updateLastBalanceUpdate (st : WalletStoreState) (network : String)
    (accountIndex : Nat) (now : Nat) : WalletStoreState :=
  let perNetwork := (mapGet st.lastBalanceUpdate network).getD []
  { st with lastBalanceUpdate :=
      mapSet st.lastBalanceUpdate network (mapSet perNetwork accountIndex now) }

/-- `BalanceFetchResult` from `types.ts`. -/
structure BalanceFetchResult where
  success : Bool
  network : String
  accountIndex : Nat
  tokenAddress : Option String
  balance : Option String
  error : Option String := none
deriving DecidableEq, Repr

/-- `fetchBalanceInternal` from `useBalanceFetcher`: return a failed result
untouched when the session is not initialized; otherwise set the loading flag,
run the account-method call (the `call` oracle stands for
`AccountService.callAccountMethod` followed by `convertBalanceToString`), and on
success record the balance and timestamp; on any failure catch the error. In
both cases clear the loading flag and return a plain result - no exception
escapes because every branch produces a `BalanceFetchResult`. -/
def fetchBalanceInternal (isInitialized : Bool) (st : WalletStoreState)
    (network : String) (accountIndex : Nat) (tokenAddress : Option String)
    (call : Except String String) (now : Nat) : BalanceFetchResult × WalletStoreState :=
  if !isInitialized then
    ({ success := false, network := network, accountIndex := accountIndex
       tokenAddress := tokenAddress, balance := none
       error := some "Wallet not initialized" }, st)
  else
    let st1 := setBalanceLoading st network accountIndex tokenAddress true
    match call with
    | .ok balance =>
      let st2 := updateBalance st1 accountIndex network tokenAddress balance
      let st3 := updateLastBalanceUpdate st2 network accountIndex now
      let st4 := setBalanceLoading st3 network accountIndex tokenAddress false
      ({ success := true, network := network, accountIndex := accountIndex
         tokenAddress := tokenAddress, balance := some balance }, st4)
    | .error e =>
      let st2 := setBalanceLoading st1 network accountIndex tokenAddress false
      ({ success := false, network := network, accountIndex := accountIndex
         tokenAddress := tokenAddress, balance := none, error := some e }, st2)

/-- A JS `Error` as inspected by `useWdkInitialization`: whether it is an
`AuthenticationError` instance, plus its `name` and `message`. -/
structure JsError where
  authInstance : Bool
  name : String
  message : String
deriving DecidableEq, Repr

/-- The authentication-error classification of `useWdkInitialization`
(lines 205-212): an `AuthenticationError` instance, an error named
`AuthenticationError`, or a message whose lowercase form mentions
`authentication`, `biometric`, or `authentication required but failed`. -/
def isAuthenticationErrorCheck (e : JsError) : Bool :=
  e.authInstance || e.name == "AuthenticationError" ||
    (strContains e.message.toLower "authentication" ||
     strContains e.message.toLower "biometric" ||
     strContains e.message.toLower "authentication required but failed")

/-- The state of the `useWdkInitialization` hook: its React state
(`hasWalletChecked`, `walletExists`, the two error slots), its refs
(`hasAttemptedWalletInit`, `authErrorOccurred`, `opId`), and the
worklet/wallet flags it reads (`isWorkletStarted`, `walletInitialized`,
`isWalletInitializing`). -/
structure InitState where
  isWorkletStarted : Bool
  hasWalletChecked : Bool
  walletExists : Option Bool
  walletInitError : Option String
  initializationError : Option String
  hasAttemptedWalletInit : Bool
  authErrorOccurred : Bool
  opId : Nat
  walletInitialized : Bool
  isWalletInitializing : Bool
deriving DecidableEq, Repr

/-- Resolution of one `initializeWallet` attempt. -/
inductive AttemptResult where
  | success
  | failure (e : JsError)
deriving DecidableEq, Repr

/-- Result of one effect or `retry` execution: the state afterwards, whether an
`initializeWallet` attempt was issued, and which branch it took
(`some true` = create-new-wallet, `some false` = load-existing-wallet). -/
structure StepOut where
  state : InitState
  attempted : Bool
  createNew : Option Bool
deriving DecidableEq, Repr

/-- The `checkWallet` effect of `useWdkInitialization` (and the identical one in
`WdkAppProvider`): guarded by `isWorkletStarted && !hasWalletChecked`; a
resolved `hasWallet` records the boolean, a rejected one records the check as
done with `walletExists = false` and touches no error slot; a cancelled run
changes nothing. -/
def checkWalletStep (s : InitState) (cancelled : Bool) (res : Except String Bool) : InitState :=
  if !s.isWorkletStarted || s.hasWalletChecked then s
  else
    match res with
    | .ok b => if cancelled then s else { s with hasWalletChecked := true, walletExists := some b }
    | .error _ => if cancelled then s else { s with hasWalletChecked := true, walletExists := some false }

/-- The wallet-initialization effect of `useWdkInitialization` (lines 232-337),
one mounted execution with a stable abort flag: the guards in source order
(prerequisites, already initialized, auth-error suppression, attempt-in-flight,
aborted), then a fresh operation id, the attempted flag, and
`performWalletInitialization` whose resolution is `res`; an authentication
failure sets the suppression ref, any failure records the message, and flags
are never reset on a non-aborted, non-superseded failure. -/
def initEffectStep (s : InitState) (aborted : Bool) (res : AttemptResult) : StepOut :=
  if !(s.hasWalletChecked && s.isWorkletStarted) then ⟨s, false, none⟩
  else if s.walletInitialized then ⟨s, false, none⟩
  else if s.authErrorOccurred then ⟨s, false, none⟩
  else if s.hasAttemptedWalletInit || s.isWalletInitializing then ⟨s, false, none⟩
  else if aborted then ⟨s, false, none⟩
  else
    let s1 := { s with opId := s.opId + 1, hasAttemptedWalletInit := true }
    let createNew := !(s1.walletExists == some true)
    let s2 := { s1 with walletInitError := none }
    match res with
    | .success => ⟨{ s2 with walletInitialized := true }, true, some createNew⟩
    | .failure e =>
      if isAuthenticationErrorCheck e then
        ⟨{ s2 with authErrorOccurred := true, walletInitError := some e.message }, true, some createNew⟩
      else
        ⟨{ s2 with walletInitError := some e.message }, true, some createNew⟩

/-- The `retry` callback of `useWdkInitialization` (lines 339-377), one mounted
execution: clear both error slots, clear the auth-error suppression ref, bump
the operation id, clear and then re-set the attempted flag, and - when the
prerequisites hold and the signal is not aborted - run one
`performWalletInitialization` attempt with resolution `res`. -/
def retryStep (s : InitState) (aborted : Bool) (res : AttemptResult) : StepOut :=
  let s1 := { s with walletInitError := none, initializationError := none
                     authErrorOccurred := false
                     opId := s.opId + 1, hasAttemptedWalletInit := false }
  if !(s1.hasWalletChecked && s1.isWorkletStarted) then ⟨s1, false, none⟩
  else if aborted then ⟨s1, false, none⟩
  else
    let s2 := { s1 with hasAttemptedWalletInit := true }
    let createNew := !(s2.walletExists == some true)
    let s3 := { s2 with walletInitError := none }
    match res with
    | .success => ⟨{ s3 with walletInitialized := true }, true, some createNew⟩
    | .failure e =>
      if isAuthenticationErrorCheck e then
        ⟨{ s3 with authErrorOccurred := true, walletInitError := some e.message }, true, some createNew⟩
      else
        ⟨{ s3 with walletInitError := some e.message }, true, some createNew⟩

/-- A sequence of automatic executions of the wallet-initialization effect
(no `retry` calls): the final state and how many `initializeWallet` attempts
were issued. -/
def runAuto (s : InitState) (steps : List (Bool × AttemptResult)) : InitState × Nat :=
  match steps with
  | [] => (s, 0)
  | (ab, res) :: rest =>
    let out := initEffectStep s ab res
    let (sF, n) := runAuto out.state rest
    (sF, (if out.attempted then 1 else 0) + n)

/-- Observable events of one balance fetch: `setBalanceLoading(.., true)` marks
the start and the final `setBalanceLoading(.., false)` marks the completion. -/
inductive BEvent where
  | start (accountIndex : Nat) (tokenAddress : Option String)
  | complete (accountIndex : Nat) (tokenAddress : Option String)
deriving DecidableEq, Repr

/-- The wallet a balance-fetch event belongs to. -/
def BEvent.wallet : BEvent → Nat
  | .start w _ => w
  | .complete w _ => w

/-- `Shuffle L t`: `t` is an interleaving of the lists in `L` - exactly the
traces a single-threaded event loop can produce for concurrently launched
async tasks whose individual event sequences are the members of `L`. -/
inductive Shuffle {α : Type} : List (List α) → List α → Prop where
  | nil {L : List (List α)} (h : ∀ l ∈ L, l = []) : Shuffle L []
  | take {L : List (List α)} {x : α} {r t : List α} (i : Nat) (hi : i < L.length)
      (hhead : L.get ⟨i, hi⟩ = x :: r) (htail : Shuffle (L.set i r) t) :
      Shuffle L (x :: t)

/-- The event sequence of one `fetchBalance(network, accountIndex, token)`. -/
def fetchEvents (w : Nat) (tok : Option String) : List BEvent :=
  [BEvent.start w tok, BEvent.complete w tok]

/-- Traces of `fetchAllBalancesForWallet`: the per-(network, token) fetches of
one wallet are launched together and run concurrently (`Promise.all`), so the
trace is any interleaving of the individual fetch event sequences. -/
def WalletFanoutTrace (w : Nat) (tokens : List (Option String)) (t : List BEvent) : Prop :=
  Shuffle (tokens.map (fetchEvents w)) t

/-- Traces of the `for..of` version of `fetchAllBalances`: each wallet fan-out
is awaited before the next begins, so the trace is the concatenation of one
fan-out trace per wallet in iteration order. -/
def FetchAllBalancesSeqTrace (ws : List Nat) (tokens : List (Option String))
    (t : List BEvent) : Prop :=
  ∃ parts : List (List BEvent),
    parts.length = ws.length ∧
    (∀ k (hk : k < parts.length) (hw : k < ws.length),
      WalletFanoutTrace (ws.get ⟨k, hw⟩) tokens (parts.get ⟨k, hk⟩)) ∧
    t = parts.flatten

/-- Traces of the `Promise.all` version of `fetchAllBalances`: all wallet
fan-outs are launched together, so the trace is any interleaving of one
fan-out trace per wallet. -/
def FetchAllBalancesParTrace (ws : List Nat) (tokens : List (Option String))
    (t : List BEvent) : Prop :=
  ∃ parts : List (List BEvent),
    parts.length = ws.length ∧
    (∀ k (hk : k < parts.length) (hw : k < ws.length),
      WalletFanoutTrace (ws.get ⟨k, hw⟩) tokens (parts.get ⟨k, hk⟩)) ∧
    Shuffle parts t

/-- The index of the block of `parts` that position `p` of `parts.join`
falls into. -/
def blockIndex {α : Type} : List (List α) → Nat → Nat
  | [], _ => 0
  | l :: ls, p => if p < l.length then 0 else blockIndex ls (p - l.length) + 1

/-- `getAllWalletsFromWalletStore`, reduced to the account indices it returns:
collect every account index appearing in the address maps, de-duplicate
(the JS `Set`), and sort ascending; only the index list matters to iteration
order. -/
def getAllWallets (addresses : List (String × List (Nat × String))) : List Nat :=
  ((addresses.map (fun p => p.snd.map Prod.fst)).flatten.dedup).insertionSort (· ≤ ·)

/-- The results of the `for..of` `fetchAllBalances`: one `fetchBalanceInternal`
result per wallet and per (network, token) pair, concatenated over wallets;
`call` resolves each individual account-method call. The store threading is
irrelevant to the returned results, which depend only on each call resolution. -/
def fetchAllBalancesResults (ws : List Nat) (pairs : List (String × Option String))
    (call : Nat → String → Option String → Except String String) : List BalanceFetchResult :=
  (ws.map (fun w => pairs.map (fun nt =>
    (fetchBalanceInternal true {} nt.fst w nt.snd (call w nt.fst nt.snd) 0).fst))).flatten

/-! ### Association-list lemmas -/

lemma find?_filter {α : Type} (m : List α) (p q : α → Bool)
    (h : ∀ x, p x = true → q x = true) : (m.filter q).find? p = m.find? p := by
  induction m with
  | nil => rfl
  | cons a m ih =>
    by_cases hq : q a = true
    · by_cases hp : p a = true
      · simp [List.filter_cons, hq, List.find?, hp]
      · simp only [List.filter_cons, hq, if_true]
        simp [List.find?, hp, ih]
    · have hp : p a = false := by
        cases hpa : p a
        · rfl
        · exact absurd (h a hpa) hq
      simp [List.filter_cons, hq, List.find?, hp, ih]

lemma mapGet_set_eq {α β : Type} [BEq α] [LawfulBEq α] (m : List (α × β)) (k : α) (v : β) :
    mapGet (mapSet m k v) k = some v := by
  simp [mapGet, mapSet, List.find?]

lemma mapGet_set_ne {α β : Type} [BEq α] [LawfulBEq α] (m : List (α × β)) (k k' : α) (v : β)
    (h : k' ≠ k) : mapGet (mapSet m k v) k' = mapGet m k' := by
  have hk : (k == k') = false := by
    simp [beq_iff_eq]
    exact fun he => h he.symm
  unfold mapGet mapSet
  simp only [List.find?, hk]
  rw [find?_filter]
  intro x hx
  have hx1 : x.fst = k' := by
    have := eq_of_beq hx
    exact this
  simp [hx1]
  exact fun he => h he

lemma mapGet_erase_eq {α β : Type} [BEq α] [LawfulBEq α] (m : List (α × β)) (k : α) :
    mapGet (mapErase m k) k = none := by
  unfold mapGet mapErase
  rw [List.find?_eq_none.mpr]
  · rfl
  · intro x hx
    have hmem := List.mem_filter.mp hx
    intro hpx
    have h1 : x.fst = k := eq_of_beq hpx
    simp [h1] at hmem

lemma jsTruthy_isSome {o : Option String} (h : jsTruthy o = true) : o.isSome := by
  cases o with
  | none => simp [jsTruthy] at h
  | some v => rfl

/-! ### C5: credential-cache merge is monotone -/

lemma cacheCredentials_preserves (cache : CredCache) (identifier : Option String)
    (ek es ee : Option String) (k : String) (cred : CachedCredentials)
    (h : mapGet cache k = some cred) :
    ∃ cred', mapGet (cacheCredentials cache identifier ek es ee) k = some cred' ∧
      (cred.encryptionKey.isSome → cred'.encryptionKey.isSome) ∧
      (cred.encryptedSeed.isSome → cred'.encryptedSeed.isSome) ∧
      (cred.encryptedEntropy.isSome → cred'.encryptedEntropy.isSome) := by
  unfold cacheCredentials
  by_cases hk : k = getCacheKey identifier
  · subst hk
    rw [mapGet_set_eq]
    refine ⟨_, rfl, ?_, ?_, ?_⟩ <;> simp only [h, Option.getD_some] <;> intro hs
    · by_cases ht : jsTruthy ek = true
      · simp [ht, jsTruthy_isSome ht]
      · simp [ht, hs]
    · by_cases ht : jsTruthy es = true
      · simp [ht, jsTruthy_isSome ht]
      · simp [ht, hs]
    · by_cases ht : jsTruthy ee = true
      · simp [ht, jsTruthy_isSome ht]
      · simp [ht, hs]
  · rw [mapGet_set_ne _ _ _ _ hk]
    exact ⟨cred, h, fun hs => hs, fun hs => hs, fun hs => hs⟩

lemma applyCacheUpdates_preserves (updates : List (Option String × Option String × Option String × Option String)) :
    ∀ (cache : CredCache) (k : String) (cred : CachedCredentials),
      mapGet cache k = some cred →
      ∃ cred', mapGet (applyCacheUpdates cache updates) k = some cred' ∧
        (cred.encryptionKey.isSome → cred'.encryptionKey.isSome) ∧
        (cred.encryptedSeed.isSome → cred'.encryptedSeed.isSome) ∧
        (cred.encryptedEntropy.isSome → cred'.encryptedEntropy.isSome) := by
  induction updates with
  | nil => exact fun cache k cred h => ⟨cred, h, fun hs => hs, fun hs => hs, fun hs => hs⟩
  | cons u rest ih =>
    intro cache k cred h
    obtain ⟨c1, h1, p1, p2, p3⟩ := cacheCredentials_preserves cache u.1 u.2.1 u.2.2.1 u.2.2.2 k cred h
    obtain ⟨c2, h2, q1, q2, q3⟩ := ih _ k c1 h1
    exact ⟨c2, h2, fun hs => q1 (p1 hs), fun hs => q2 (p2 hs), fun hs => q3 (p3 hs)⟩

/-- C5: credential-cache merging is monotone: across any sequence of
`cacheCredentials` partial updates, a field that is set for some identifier is
never unset by a later update (for any identifier); in particular merging
`encryptionKey = "k"` and then `encryptedSeed = "s"` for the same identifier
leaves an entry holding both values. -/
theorem cacheCredentials_monotone :
    (∀ (cache : CredCache)
        (updates : List (Option String × Option String × Option String × Option String))
        (k : String) (cred : CachedCredentials),
      mapGet cache k = some cred →
      ∃ cred', mapGet (applyCacheUpdates cache updates) k = some cred' ∧
        (cred.encryptionKey.isSome → cred'.encryptionKey.isSome) ∧
        (cred.encryptedSeed.isSome → cred'.encryptedSeed.isSome) ∧
        (cred.encryptedEntropy.isSome → cred'.encryptedEntropy.isSome)) ∧
    mapGet (cacheCredentials (cacheCredentials [] (some "id") (some "k") none none)
        (some "id") none (some "s") none) "id" =
      some { encryptionKey := some "k", encryptedSeed := some "s", encryptedEntropy := none } := by
  constructor
  · exact fun cache updates k cred h => applyCacheUpdates_preserves updates cache k cred h
  · decide

/-- Witness for C5 at a concrete cache and update sequence. -/
theorem cacheCredentials_monotone_witness :
    mapGet [("default", ({ encryptionKey := some "k" } : CachedCredentials))] "default" =
        some { encryptionKey := some "k" } ∧
    ∃ cred', mapGet (applyCacheUpdates
        [("default", ({ encryptionKey := some "k" } : CachedCredentials))]
        [(none, none, some "s", none)]) "default" = some cred' ∧
      ((some "k" : Option String).isSome → cred'.encryptionKey.isSome) ∧
      ((none : Option String).isSome → cred'.encryptedSeed.isSome) ∧
      ((none : Option String).isSome → cred'.encryptedEntropy.isSome) := by
  refine ⟨by decide, ?_⟩
  exact cacheCredentials_monotone.1
    [("default", ({ encryptionKey := some "k" } : CachedCredentials))]
    [(none, none, some "s", none)] "default"
    { encryptionKey := some "k" } (by decide)

/-! ### C4: a full cache hit skips every secure-storage call -/

/-- C4: when both the encryption key and the encrypted seed are cached (truthy)
for the identifier, `loadExistingWallet` returns the cached pair, issues no
secure-storage call at all (in particular not the authenticated path), and
leaves the cache unchanged. -/
theorem loadExistingWallet_cache_hit :
    ∀ (cache : CredCache) (identifier : Option String) (storage : SecureStorageBehavior)
      (cred : CachedCredentials) (ek es : String),
      mapGet cache (getCacheKey identifier) = some cred →
      cred.encryptionKey = some ek → ek ≠ "" →
      cred.encryptedSeed = some es → es ≠ "" →
      loadExistingWallet cache identifier storage =
        { result := .ok (ek, es), calls := [], cache := cache } := by
  intro cache identifier storage cred ek es hget hk hkne hs hsne
  unfold loadExistingWallet
  simp [hget, hk, hs, jsTruthy, hkne, hsne]

/-- Witness for C4 at a concrete cache. -/
theorem loadExistingWallet_cache_hit_witness :
    mapGet [("user1", ({ encryptionKey := some "EK", encryptedSeed := some "ES" }
        : CachedCredentials))] (getCacheKey (some "user1")) =
      some { encryptionKey := some "EK", encryptedSeed := some "ES" } ∧
    loadExistingWallet
        [("user1", { encryptionKey := some "EK", encryptedSeed := some "ES" })] (some "user1")
        { encryptedSeedResp := none, allEncryptedKeyResp := none } =
      { result := .ok ("EK", "ES"), calls := [], cache :=
        [("user1", { encryptionKey := some "EK", encryptedSeed := some "ES" })] } := by
  refine ⟨by decide, ?_⟩
  exact loadExistingWallet_cache_hit
    [("user1", { encryptionKey := some "EK", encryptedSeed := some "ES" })] (some "user1")
    { encryptedSeedResp := none, allEncryptedKeyResp := none }
    { encryptionKey := some "EK", encryptedSeed := some "ES" } "EK" "ES"
    (by decide) rfl (by decide) rfl (by decide)

/-! ### C3: a null encrypted seed on the uncached path -/

lemma finishLoad_calls (cache : CredCache) (identifier : Option String)
    (k s : Option String) (calls : List StorageCall) :
    (finishLoad cache identifier k s calls).calls = calls := by
  unfold finishLoad
  split
  · rfl
  · split <;> rfl

lemma finishLoad_result_nokey (cache : CredCache) (identifier : Option String)
    (k s : Option String) (calls : List StorageCall) (h : jsTruthy k = false) :
    (finishLoad cache identifier k s calls).result = .error encryptionKeyNotFoundMsg := by
  simp [finishLoad, h]

lemma finishLoad_result_noseed (cache : CredCache) (identifier : Option String)
    (k s : Option String) (calls : List StorageCall)
    (hk : jsTruthy k = true) (hs : jsTruthy s = false) :
    (finishLoad cache identifier k s calls).result = .error encryptedSeedNotFoundMsg := by
  simp [finishLoad, hk, hs]

lemma loadExistingWallet_miss_cachedKey (cache : CredCache) (identifier : Option String)
    (storage : SecureStorageBehavior)
    (hmiss : (jsTruthy ((mapGet cache (getCacheKey identifier)).bind (fun c => c.encryptionKey)) &&
      jsTruthy ((mapGet cache (getCacheKey identifier)).bind (fun c => c.encryptedSeed))) = false)
    (hkey : jsTruthy ((mapGet cache (getCacheKey identifier)).bind
      (fun c => c.encryptionKey)) = true) :
    loadExistingWallet cache identifier storage =
      finishLoad cache identifier
        ((mapGet cache (getCacheKey identifier)).bind (fun c => c.encryptionKey))
        storage.encryptedSeedResp [StorageCall.getEncryptedSeed] := by
  have hseed : jsTruthy ((mapGet cache (getCacheKey identifier)).bind
      (fun c => c.encryptedSeed)) = false := by
    rw [hkey] at hmiss
    simpa using hmiss
  simp [loadExistingWallet, hkey, hseed]

lemma loadExistingWallet_miss_nokey (cache : CredCache) (identifier : Option String)
    (storage : SecureStorageBehavior)
    (hkey : jsTruthy ((mapGet cache (getCacheKey identifier)).bind
      (fun c => c.encryptionKey)) = false) :
    loadExistingWallet cache identifier storage =
      finishLoad cache identifier
        (if jsTruthy storage.allEncryptedKeyResp = true then storage.allEncryptedKeyResp else none)
        storage.encryptedSeedResp
        [StorageCall.getEncryptedSeed, StorageCall.getAllEncrypted] := by
  simp [loadExistingWallet, hkey]

lemma loadExistingWallet_hit (cache : CredCache) (identifier : Option String)
    (storage : SecureStorageBehavior)
    (hhit : (jsTruthy ((mapGet cache (getCacheKey identifier)).bind (fun c => c.encryptionKey)) &&
      jsTruthy ((mapGet cache (getCacheKey identifier)).bind (fun c => c.encryptedSeed))) = true) :
    (loadExistingWallet cache identifier storage).calls = [] := by
  simp [loadExistingWallet, hhit]

/-- Counterexample to C3 as stated: with an empty cache (credentials uncached)
and `getEncryptedSeed` resolving to null, the authenticated `getAllEncrypted`
call is still issued (first conjunct), and when it yields no key either, the
failure message is the encryption-key one, not one containing
`"Encrypted seed not found"` (second conjunct). -/
theorem loadExistingWallet_seed_first_counterexample :
    StorageCall.getAllEncrypted ∈
      (loadExistingWallet [] none
        { encryptedSeedResp := none, allEncryptedKeyResp := some "K" }).calls ∧
    (loadExistingWallet [] none
        { encryptedSeedResp := none, allEncryptedKeyResp := none }).result =
      .error encryptionKeyNotFoundMsg := by
  decide

/-- C3 as amended: on a cache miss `getEncryptedSeed` is always the first
secure-storage call; when the encryption key is cached and the seed resolves to
null, the run fails with the `"Encrypted seed not found"` message without the
authenticated `getAllEncrypted` call; when the key is not cached the
authenticated call is issued even though the seed is null, and the failure is
the seed message only if a key was resolved, otherwise the key message. -/
theorem loadExistingWallet_seed_first :
    ∀ (cache : CredCache) (identifier : Option String) (storage : SecureStorageBehavior),
      (jsTruthy ((mapGet cache (getCacheKey identifier)).bind (fun c => c.encryptionKey)) &&
        jsTruthy ((mapGet cache (getCacheKey identifier)).bind (fun c => c.encryptedSeed))) = false →
      (loadExistingWallet cache identifier storage).calls.head? =
        some StorageCall.getEncryptedSeed ∧
      (jsTruthy ((mapGet cache (getCacheKey identifier)).bind (fun c => c.encryptionKey)) = true →
        storage.encryptedSeedResp = none →
        (loadExistingWallet cache identifier storage).result = .error encryptedSeedNotFoundMsg ∧
        StorageCall.getAllEncrypted ∉ (loadExistingWallet cache identifier storage).calls) ∧
      (jsTruthy ((mapGet cache (getCacheKey identifier)).bind (fun c => c.encryptionKey)) = false →
        StorageCall.getAllEncrypted ∈ (loadExistingWallet cache identifier storage).calls ∧
        (storage.encryptedSeedResp = none →
          (jsTruthy storage.allEncryptedKeyResp = true →
            (loadExistingWallet cache identifier storage).result =
              .error encryptedSeedNotFoundMsg) ∧
          (jsTruthy storage.allEncryptedKeyResp = false →
            (loadExistingWallet cache identifier storage).result =
              .error encryptionKeyNotFoundMsg))) := by
  intro cache identifier storage hmiss
  by_cases hkey : jsTruthy ((mapGet cache (getCacheKey identifier)).bind
      (fun c => c.encryptionKey)) = true
  · rw [loadExistingWallet_miss_cachedKey cache identifier storage hmiss hkey]
    refine ⟨?_, ?_, ?_⟩
    · rw [finishLoad_calls]
      rfl
    · intro _ hseed
      constructor
      · exact finishLoad_result_noseed _ _ _ _ _ hkey (by rw [hseed]; rfl)
      · rw [finishLoad_calls]
        decide
    · intro hfalse
      rw [hkey] at hfalse
      exact absurd hfalse (by decide)
  · have hkey' : jsTruthy ((mapGet cache (getCacheKey identifier)).bind
        (fun c => c.encryptionKey)) = false := by
      cases h : jsTruthy ((mapGet cache (getCacheKey identifier)).bind (fun c => c.encryptionKey))
      · rfl
      · exact absurd h hkey
    rw [loadExistingWallet_miss_nokey cache identifier storage hkey']
    refine ⟨?_, ?_, ?_⟩
    · rw [finishLoad_calls]
      rfl
    · intro htrue
      rw [hkey'] at htrue
      exact absurd htrue (by decide)
    · intro _
      constructor
      · rw [finishLoad_calls]
        decide
      · intro hseed
        constructor
        · intro hak
          rw [if_pos hak]
          exact finishLoad_result_noseed _ _ _ _ _ hak (by rw [hseed]; rfl)
        · intro hak
          rw [hak]
          simp only [Bool.false_eq_true, if_false]
          exact finishLoad_result_nokey _ _ _ _ _ rfl

/-- Witness for C3 (amended) at a concrete cache-with-key and null seed. -/
theorem loadExistingWallet_seed_first_witness :
    (jsTruthy ((mapGet [("u", ({ encryptionKey := some "EK" } : CachedCredentials))]
        (getCacheKey (some "u"))).bind (fun c => c.encryptionKey)) &&
      jsTruthy ((mapGet [("u", ({ encryptionKey := some "EK" } : CachedCredentials))]
        (getCacheKey (some "u"))).bind (fun c => c.encryptedSeed))) = false ∧
    ((loadExistingWallet [("u", { encryptionKey := some "EK" })] (some "u")
        { encryptedSeedResp := none, allEncryptedKeyResp := none }).result =
      .error encryptedSeedNotFoundMsg ∧
     StorageCall.getAllEncrypted ∉
      (loadExistingWallet [("u", { encryptionKey := some "EK" })] (some "u")
        { encryptedSeedResp := none, allEncryptedKeyResp := none }).calls) := by
  refine ⟨by decide, ?_⟩
  exact (loadExistingWallet_seed_first
    [("u", { encryptionKey := some "EK" })] (some "u")
    { encryptedSeedResp := none, allEncryptedKeyResp := none }
    (by decide)).2.1 (by decide) rfl

/-! ### C8: the not-found error path performs no secure-storage deletion -/

/-- Counterexample to C8 as stated: a run of `loadExistingWallet` that ends in
the not-found condition (empty cache, null seed, null key) surfaces the error
while its secure-storage call list contains no `deleteWallet` call. -/
theorem notFound_no_delete_counterexample :
    (loadExistingWallet [] none
        { encryptedSeedResp := none, allEncryptedKeyResp := none }).result =
      .error encryptionKeyNotFoundMsg ∧
    StorageCall.deleteWallet ∉
      (loadExistingWallet [] none
        { encryptedSeedResp := none, allEncryptedKeyResp := none }).calls := by
  decide

/-- C8 as amended: every failing `loadExistingWallet` run surfaces its error
without issuing any secure-storage `deleteWallet` call; the cleanup exists only
as the separate `deleteWallet` operation, which deletes the secure-storage
entry and clears the credential-cache entry for the identifier. -/
theorem notFound_surfaces_without_delete :
    (∀ (cache : CredCache) (identifier : Option String) (storage : SecureStorageBehavior)
        (e : String),
      (loadExistingWallet cache identifier storage).result = .error e →
      StorageCall.deleteWallet ∉ (loadExistingWallet cache identifier storage).calls) ∧
    (∀ (cache : CredCache) (identifier : Option String),
      (deleteWallet cache identifier).calls = [StorageCall.deleteWallet] ∧
      (jsTruthy identifier = true →
        mapGet (deleteWallet cache identifier).cache (getCacheKey identifier) = none)) := by
  constructor
  · intro cache identifier storage e _
    by_cases hhit : (jsTruthy ((mapGet cache (getCacheKey identifier)).bind
        (fun c => c.encryptionKey)) &&
        jsTruthy ((mapGet cache (getCacheKey identifier)).bind (fun c => c.encryptedSeed))) = true
    · rw [loadExistingWallet_hit cache identifier storage hhit]
      decide
    · have hmiss : (jsTruthy ((mapGet cache (getCacheKey identifier)).bind
          (fun c => c.encryptionKey)) &&
          jsTruthy ((mapGet cache (getCacheKey identifier)).bind
            (fun c => c.encryptedSeed))) = false := by
        cases h : (jsTruthy ((mapGet cache (getCacheKey identifier)).bind
            (fun c => c.encryptionKey)) &&
            jsTruthy ((mapGet cache (getCacheKey identifier)).bind (fun c => c.encryptedSeed)))
        · rfl
        · exact absurd h hhit
      by_cases hkey : jsTruthy ((mapGet cache (getCacheKey identifier)).bind
          (fun c => c.encryptionKey)) = true
      · rw [loadExistingWallet_miss_cachedKey cache identifier storage hmiss hkey,
          finishLoad_calls]
        decide
      · have hkey' : jsTruthy ((mapGet cache (getCacheKey identifier)).bind
            (fun c => c.encryptionKey)) = false := by
          cases h : jsTruthy ((mapGet cache (getCacheKey identifier)).bind
              (fun c => c.encryptionKey))
          · rfl
          · exact absurd h hkey
        rw [loadExistingWallet_miss_nokey cache identifier storage hkey', finishLoad_calls]
        decide
  · intro cache identifier
    refine ⟨rfl, ?_⟩
    intro hid
    unfold deleteWallet clearCredentialsCache
    rw [hid]
    simp only [if_true]
    exact mapGet_erase_eq cache (getCacheKey identifier)

/-- Witness for C8 (amended) at a concrete failing run. -/
theorem notFound_surfaces_without_delete_witness :
    (loadExistingWallet [("w", ({ encryptionKey := some "EK" } : CachedCredentials))] (some "w")
        { encryptedSeedResp := none, allEncryptedKeyResp := none }).result =
      .error encryptedSeedNotFoundMsg ∧
    StorageCall.deleteWallet ∉
      (loadExistingWallet [("w", { encryptionKey := some "EK" })] (some "w")
        { encryptedSeedResp := none, allEncryptedKeyResp := none }).calls := by
  refine ⟨by decide, ?_⟩
  exact notFound_surfaces_without_delete.1
    [("w", { encryptionKey := some "EK" })] (some "w")
    { encryptedSeedResp := none, allEncryptedKeyResp := none }
    encryptedSeedNotFoundMsg (by decide)

/-! ### C10: `initializeWDK` is idempotent for identical credentials -/

/-- C10: when the session is started with an `hrpc` handle, already
initialized, and holds the same `(encryptionKey, encryptedSeed)` pair, a
repeated `initializeWDK` call returns successfully with no remote dispatch and
leaves the store state unchanged. -/
theorem initializeWDK_idempotent :
    ∀ (st : WorkletState) (k s : String) (remote : Except String String),
      st.isWorkletStarted = true → st.hrpcAvailable = true →
      st.isInitialized = true → st.encryptionKey = some k → st.encryptedSeed = some s →
      initializeWDK st k s remote =
        { result := .ok (), state := st, remoteCalls := 0 } := by
  intro st k s remote h1 h2 h3 h4 h5
  simp [initializeWDK, h1, h2, h3, h4, h5]

/-- Witness for C10 at a concrete initialized state. -/
theorem initializeWDK_idempotent_witness :
    ({ isWorkletStarted := true, isInitialized := true, hrpcAvailable := true
       encryptionKey := some "EK", encryptedSeed := some "ES" } : WorkletState).isInitialized
        = true ∧
    initializeWDK
      { isWorkletStarted := true, isInitialized := true, hrpcAvailable := true
        encryptionKey := some "EK", encryptedSeed := some "ES" } "EK" "ES"
      (.error "gateway unreachable") =
    { result := .ok ()
      state := { isWorkletStarted := true, isInitialized := true, hrpcAvailable := true
                 encryptionKey := some "EK", encryptedSeed := some "ES" }
      remoteCalls := 0 } := by
  refine ⟨rfl, ?_⟩
  exact initializeWDK_idempotent
    { isWorkletStarted := true, isInitialized := true, hrpcAvailable := true
      encryptionKey := some "EK", encryptedSeed := some "ES" }
    "EK" "ES" (.error "gateway unreachable") rfl rfl rfl rfl rfl

/-! ### C9: the account-method allow-list -/

/-- Counterexample to C9 as stated: `WorkletService.callAccountMethod` (cited by
the claim alongside the `AddressService` version) dispatches a method name far
outside the allow-list to the remote gateway once the session is initialized. -/
theorem callAccountMethod_allowlist_counterexample :
    ALLOWED_ACCOUNT_METHODS.contains "stealAllFunds" = false ∧
    (WorkletService.callAccountMethod "ethereum" 0 "stealAllFunds"
        { isInitialized := true, hrpcAvailable := true }
        (.ok (some "done"))).remoteDispatched = true := by
  decide

/-- C9 as amended: `AddressService.callAccountMethod` rejects every method name
outside the allow-list locally (throwing without any remote dispatch) and
dispatches allowed names to the gateway when its argument validation passes and
the session is initialized; `WorkletService.callAccountMethod` performs no
method-name validation and dispatches any name once the session is
initialized. -/
theorem callAccountMethod_allowlist :
    (∀ (network : String) (accountIndex : Int) (methodName : String) (st : WorkletState)
        (remote : Except String (Option String)),
      ALLOWED_ACCOUNT_METHODS.contains methodName = false →
      (AddressService.callAccountMethod network accountIndex methodName st remote).remoteDispatched
          = false ∧
      ∃ e, (AddressService.callAccountMethod network accountIndex methodName st remote).result
          = .error e) ∧
    (∀ (network : String) (accountIndex : Int) (methodName : String) (st : WorkletState)
        (remote : Except String (Option String)),
      ALLOWED_ACCOUNT_METHODS.contains methodName = true →
      isValidNetworkName network = true → isValidAccountIndex accountIndex = true →
      st.isInitialized = true → st.hrpcAvailable = true →
      (AddressService.callAccountMethod network accountIndex methodName st remote).remoteDispatched
          = true) ∧
    (∀ (network : String) (accountIndex : Int) (methodName : String) (st : WorkletState)
        (remote : Except String (Option String)),
      st.isInitialized = true → st.hrpcAvailable = true →
      (WorkletService.callAccountMethod network accountIndex methodName st remote).remoteDispatched
          = true) := by
  refine ⟨?_, ?_, ?_⟩
  · intro network accountIndex methodName st remote hmem
    unfold AddressService.callAccountMethod
    by_cases htrim : methodName.data.all (fun c => c.isWhitespace) = true
    · rw [htrim]
      exact ⟨rfl, _, rfl⟩
    · have htrim' : methodName.data.all (fun c => c.isWhitespace) = false := by
        cases h : methodName.data.all (fun c => c.isWhitespace)
        · rfl
        · exact absurd h htrim
      rw [htrim', hmem]
      exact ⟨rfl, _, rfl⟩
  · intro network accountIndex methodName st remote hmem hnet hidx hinit hhrpc
    have hne : methodName.data.all (fun c => c.isWhitespace) = false := by
      have hm : methodName = "getAddress" ∨ methodName = "getBalance" ∨
          methodName = "getTokenBalance" ∨ methodName = "signMessage" ∨
          methodName = "signTransaction" ∨ methodName = "sendTransaction" := by
        simpa [ALLOWED_ACCOUNT_METHODS, List.contains, beq_iff_eq] using hmem
      rcases hm with h | h | h | h | h | h <;> rw [h] <;> decide
    unfold AddressService.callAccountMethod
    rw [hne, hmem, hnet, hidx, hinit, hhrpc]
    cases remote with
    | error e => rfl
    | ok r => cases r <;> rfl
  · intro network accountIndex methodName st remote hinit hhrpc
    unfold WorkletService.callAccountMethod
    rw [hinit, hhrpc]
    simp only [Bool.and_self, Bool.not_true, Bool.false_eq_true, if_false]
    cases remote with
    | error e => rfl
    | ok r => cases r <;> rfl

/-- Witness for C9 (amended): a disallowed name is rejected locally at a
concrete input. -/
theorem callAccountMethod_allowlist_witness :
    ALLOWED_ACCOUNT_METHODS.contains "eval" = false ∧
    ((AddressService.callAccountMethod "ethereum" 0 "eval"
        { isInitialized := true, hrpcAvailable := true }
        (.ok (some "x"))).remoteDispatched = false ∧
     ∃ e, (AddressService.callAccountMethod "ethereum" 0 "eval"
        { isInitialized := true, hrpcAvailable := true }
        (.ok (some "x"))).result = .error e) := by
  refine ⟨by decide, ?_⟩
  exact callAccountMethod_allowlist.1 "ethereum" 0 "eval"
    { isInitialized := true, hrpcAvailable := true } (.ok (some "x")) (by decide)

/-! ### C6: `fetchBalance` is total and clears the loading flag -/

lemma updateBalance_entry (s : WalletStoreState) (network : String) (accountIndex : Nat)
    (tokenAddress : Option String) (v : String) :
    balancesEntry (updateBalance s accountIndex network tokenAddress v)
      network accountIndex tokenAddress = some v := by
  unfold balancesEntry updateBalance
  rw [mapGet_set_eq, Option.some_bind, mapGet_set_eq, Option.some_bind, mapGet_set_eq]

lemma updateLastBalanceUpdate_entry (s : WalletStoreState) (network : String)
    (accountIndex : Nat) (now : Nat) :
    lastUpdateEntry (updateLastBalanceUpdate s network accountIndex now)
      network accountIndex = some now := by
  unfold lastUpdateEntry updateLastBalanceUpdate
  rw [mapGet_set_eq, Option.some_bind, mapGet_set_eq]

/-- C6: `fetchBalanceInternal` always returns a plain `BalanceFetchResult` for
the requested key (no exception escapes); when the session is not initialized
it fails with `"Wallet not initialized"` and leaves the store untouched; once
initialized, the per-(network, accountIndex, token) loading flag is clear in
the final store on success and on failure alike; a call failure is carried as
the error message of a failed result; a success records the balance and the
last-updated timestamp. A loading flag that was clear beforehand is clear
afterwards in every case. -/
theorem fetchBalance_total :
    ∀ (init : Bool) (st : WalletStoreState) (network : String) (accountIndex : Nat)
      (tokenAddress : Option String) (call : Except String String) (now : Nat),
      ((fetchBalanceInternal init st network accountIndex tokenAddress call now).fst.network
          = network ∧
        (fetchBalanceInternal init st network accountIndex tokenAddress call now).fst.accountIndex
          = accountIndex ∧
        (fetchBalanceInternal init st network accountIndex tokenAddress call now).fst.tokenAddress
          = tokenAddress) ∧
      (init = false →
        fetchBalanceInternal init st network accountIndex tokenAddress call now =
          ({ success := false, network := network, accountIndex := accountIndex
             tokenAddress := tokenAddress, balance := none
             error := some "Wallet not initialized" }, st)) ∧
      (init = true →
        isBalanceLoading
          (fetchBalanceInternal init st network accountIndex tokenAddress call now).snd
          network accountIndex tokenAddress = false) ∧
      (isBalanceLoading st network accountIndex tokenAddress = false →
        isBalanceLoading
          (fetchBalanceInternal init st network accountIndex tokenAddress call now).snd
          network accountIndex tokenAddress = false) ∧
      (∀ e, init = true → call = .error e →
        (fetchBalanceInternal init st network accountIndex tokenAddress call now).fst =
          { success := false, network := network, accountIndex := accountIndex
            tokenAddress := tokenAddress, balance := none, error := some e }) ∧
      (∀ v, init = true → call = .ok v →
        (fetchBalanceInternal init st network accountIndex tokenAddress call now).fst =
          { success := true, network := network, accountIndex := accountIndex
            tokenAddress := tokenAddress, balance := some v, error := none } ∧
        balancesEntry
          (fetchBalanceInternal init st network accountIndex tokenAddress call now).snd
          network accountIndex tokenAddress = some v ∧
        lastUpdateEntry
          (fetchBalanceInternal init st network accountIndex tokenAddress call now).snd
          network accountIndex = some now) := by
  intro init st network accountIndex tokenAddress call now
  cases init with
  | false =>
    refine ⟨?_, ?_, ?_, ?_, ?_, ?_⟩
    · exact ⟨rfl, rfl, rfl⟩
    · intro _
      rfl
    · intro h
      exact absurd h (by decide)
    · intro h
      exact h
    · intro e h
      exact absurd h (by decide)
    · intro v h
      exact absurd h (by decide)
  | true =>
    have hload : ∀ (s : WalletStoreState),
        isBalanceLoading (setBalanceLoading s network accountIndex tokenAddress false)
          network accountIndex tokenAddress = false := by
      intro s
      unfold isBalanceLoading setBalanceLoading
      simp only [Bool.false_eq_true, if_false]
      rw [mapGet_erase_eq]
      rfl
    cases call with
    | error e =>
      refine ⟨⟨rfl, rfl, rfl⟩, ?_, ?_, ?_, ?_, ?_⟩
      · intro h
        exact absurd h (by decide)
      · intro _
        exact hload _
      · intro _
        exact hload _
      · intro e2 _ he
        have h : e = e2 := by
          injection he
        rw [h]
        rfl
      · intro v _ hv
        exact absurd hv (by simp)
    | ok v =>
      refine ⟨⟨rfl, rfl, rfl⟩, ?_, ?_, ?_, ?_, ?_⟩
      · intro h
        exact absurd h (by decide)
      · intro _
        exact hload _
      · intro _
        exact hload _
      · intro e _ he
        exact absurd he (by simp)
      · intro v2 _ hv
        have hv2 : v = v2 := by
          injection hv
        subst hv2
        refine ⟨rfl, ?_, ?_⟩
        · exact updateBalance_entry
            (setBalanceLoading st network accountIndex tokenAddress true)
            network accountIndex tokenAddress v
        · exact updateLastBalanceUpdate_entry
            (updateBalance (setBalanceLoading st network accountIndex tokenAddress true)
              accountIndex network tokenAddress v)
            network accountIndex now

/-- Witness for C6 at a concrete arbitrary-precision balance fetch. -/
theorem fetchBalance_total_witness :
    (Except.ok "123456789012345678901234567890" : Except String String) =
        .ok "123456789012345678901234567890" ∧
    ((fetchBalanceInternal true {} "ethereum" 0 none
        (.ok "123456789012345678901234567890") 42).fst =
      { success := true, network := "ethereum", accountIndex := 0
        tokenAddress := none, balance := some "123456789012345678901234567890"
        error := none } ∧
     balancesEntry (fetchBalanceInternal true {} "ethereum" 0 none
        (.ok "123456789012345678901234567890") 42).snd "ethereum" 0 none =
      some "123456789012345678901234567890" ∧
     lastUpdateEntry (fetchBalanceInternal true {} "ethereum" 0 none
        (.ok "123456789012345678901234567890") 42).snd "ethereum" 0 = some 42) := by
  refine ⟨rfl, ?_⟩
  exact (fetchBalance_total true {} "ethereum" 0 none
    (.ok "123456789012345678901234567890") 42).2.2.2.2.2
    "123456789012345678901234567890" rfl rfl

/-! ### C1: authentication-error suppression and `retry` -/

lemma initEffectStep_frozen (s : InitState) (ab : Bool) (res : AttemptResult)
    (h : s.authErrorOccurred = true ∨ s.hasAttemptedWalletInit = true ∨
      s.walletInitialized = true) :
    initEffectStep s ab res = ⟨s, false, none⟩ := by
  unfold initEffectStep
  split_ifs with h1 h2 h3 h4 h5 <;> try rfl
  rcases h with h | h | h
  · exact absurd h h3
  · exact absurd (by rw [h]; rfl) h4
  · exact absurd h h2

lemma runAuto_frozen (s : InitState) (steps : List (Bool × AttemptResult))
    (h : s.authErrorOccurred = true ∨ s.hasAttemptedWalletInit = true ∨
      s.walletInitialized = true) :
    runAuto s steps = (s, 0) := by
  induction steps with
  | nil => rfl
  | cons step rest ih =>
    obtain ⟨ab, res⟩ := step
    simp [runAuto, initEffectStep_frozen s ab res h, ih]

/-- C1: once a wallet-initialization attempt fails with an authentication
error, the suppression ref is set (first conjunct) and no later automatic
execution of the initialization effect issues any attempt or changes the state
(second conjunct); `retry` clears the suppression flag and both error slots and
issues exactly one new attempt - itself - after which automatic executions again
issue none (third conjunct). -/
theorem authError_suppression_and_retry :
    (∀ (s : InitState) (aborted : Bool) (e : JsError),
      isAuthenticationErrorCheck e = true →
      (initEffectStep s aborted (.failure e)).attempted = true →
      (initEffectStep s aborted (.failure e)).state.authErrorOccurred = true) ∧
    (∀ (s : InitState) (steps : List (Bool × AttemptResult)),
      s.authErrorOccurred = true →
      runAuto s steps = (s, 0)) ∧
    (∀ (s : InitState) (res : AttemptResult),
      s.hasWalletChecked = true → s.isWorkletStarted = true →
      (retryStep s false res).attempted = true ∧
      (res = .success →
        (retryStep s false res).state.authErrorOccurred = false ∧
        (retryStep s false res).state.walletInitError = none ∧
        (retryStep s false res).state.initializationError = none ∧
        (retryStep s false res).state.walletInitialized = true) ∧
      (∀ steps, (runAuto (retryStep s false res).state steps).snd = 0)) := by
  refine ⟨?_, ?_, ?_⟩
  · intro s aborted e hAuth
    unfold initEffectStep
    split_ifs with h1 h2 h3 h4 h5 <;> intro hAtt
    · exact hAtt.elim
    · exact hAtt.elim
    · exact hAtt.elim
    · exact hAtt.elim
    · exact hAtt.elim
    · simp [hAuth]
  · intro s steps h
    exact runAuto_frozen s steps (Or.inl h)
  · intro s res h1 h2
    have hAttemptedTrue : (retryStep s false res).state.hasAttemptedWalletInit = true := by
      cases res with
      | success => simp [retryStep, h1, h2]
      | failure e =>
        by_cases hAuth : isAuthenticationErrorCheck e = true
        · simp [retryStep, h1, h2, hAuth]
        · simp [retryStep, h1, h2, hAuth]
    refine ⟨?_, ?_, ?_⟩
    · cases res with
      | success => simp [retryStep, h1, h2]
      | failure e =>
        by_cases hAuth : isAuthenticationErrorCheck e = true
        · simp [retryStep, h1, h2, hAuth]
        · simp [retryStep, h1, h2, hAuth]
    · intro hres
      subst hres
      simp [retryStep, h1, h2]
    · intro steps
      rw [runAuto_frozen _ steps (Or.inr (Or.inl hAttemptedTrue))]

/-- Witness for C1 at a concrete suppressed state and step sequence. -/
theorem authError_suppression_and_retry_witness :
    ({ isWorkletStarted := true, hasWalletChecked := true, walletExists := some true
       walletInitError := some "Authentication required but failed"
       initializationError := none, hasAttemptedWalletInit := true
       authErrorOccurred := true, opId := 3, walletInitialized := false
       isWalletInitializing := false } : InitState).authErrorOccurred = true ∧
    runAuto
      { isWorkletStarted := true, hasWalletChecked := true, walletExists := some true
        walletInitError := some "Authentication required but failed"
        initializationError := none, hasAttemptedWalletInit := true
        authErrorOccurred := true, opId := 3, walletInitialized := false
        isWalletInitializing := false }
      [(false, .success), (false, .failure ⟨false, "Error", "network down"⟩)] =
    ({ isWorkletStarted := true, hasWalletChecked := true, walletExists := some true
       walletInitError := some "Authentication required but failed"
       initializationError := none, hasAttemptedWalletInit := true
       authErrorOccurred := true, opId := 3, walletInitialized := false
       isWalletInitializing := false }, 0) := by
  refine ⟨rfl, ?_⟩
  exact authError_suppression_and_retry.2.1
    { isWorkletStarted := true, hasWalletChecked := true, walletExists := some true
      walletInitError := some "Authentication required but failed"
      initializationError := none, hasAttemptedWalletInit := true
      authErrorOccurred := true, opId := 3, walletInitialized := false
      isWalletInitializing := false }
    [(false, .success), (false, .failure ⟨false, "Error", "network down"⟩)] rfl

/-! ### C2: a failing wallet-existence query fails open -/

/-- C2: when the wallet-existence query rejects, the (non-cancelled) check
effect records the check as completed with `walletExists = false` and leaves
both error slots untouched (no error state); a following execution of the
initialization effect, with no attempt in flight and no suppression, issues an
attempt that takes the create-new-wallet branch. -/
theorem checkWallet_fail_open :
    ∀ (s : InitState) (msg : String) (res : AttemptResult),
      s.isWorkletStarted = true → s.hasWalletChecked = false →
      ((checkWalletStep s false (.error msg)).hasWalletChecked = true ∧
       (checkWalletStep s false (.error msg)).walletExists = some false ∧
       (checkWalletStep s false (.error msg)).walletInitError = s.walletInitError ∧
       (checkWalletStep s false (.error msg)).initializationError = s.initializationError) ∧
      (s.walletInitialized = false → s.authErrorOccurred = false →
       s.hasAttemptedWalletInit = false → s.isWalletInitializing = false →
       (initEffectStep (checkWalletStep s false (.error msg)) false res).attempted = true ∧
       (initEffectStep (checkWalletStep s false (.error msg)) false res).createNew
          = some true) := by
  intro s msg res h1 h2
  have hstep : checkWalletStep s false (.error msg) =
      { s with hasWalletChecked := true, walletExists := some false } := by
    simp [checkWalletStep, h1, h2]
  constructor
  · rw [hstep]
    exact ⟨rfl, rfl, rfl, rfl⟩
  · intro hwi hauth hatt hini
    rw [hstep]
    cases res with
    | success => simp [initEffectStep, h1, hwi, hauth, hatt, hini]
    | failure e =>
      by_cases hAuth : isAuthenticationErrorCheck e = true
      · simp [initEffectStep, h1, hwi, hauth, hatt, hini, hAuth]
      · simp [initEffectStep, h1, hwi, hauth, hatt, hini, hAuth]

/-- Witness for C2 at a concrete pre-check state. -/
theorem checkWallet_fail_open_witness :
    ({ isWorkletStarted := true, hasWalletChecked := false, walletExists := none
       walletInitError := none, initializationError := none
       hasAttemptedWalletInit := false, authErrorOccurred := false, opId := 0
       walletInitialized := false, isWalletInitializing := false }
      : InitState).isWorkletStarted = true ∧
    ((checkWalletStep
        { isWorkletStarted := true, hasWalletChecked := false, walletExists := none
          walletInitError := none, initializationError := none
          hasAttemptedWalletInit := false, authErrorOccurred := false, opId := 0
          walletInitialized := false, isWalletInitializing := false }
        false (.error "secure storage unreachable")).hasWalletChecked = true ∧
     (checkWalletStep
        { isWorkletStarted := true, hasWalletChecked := false, walletExists := none
          walletInitError := none, initializationError := none
          hasAttemptedWalletInit := false, authErrorOccurred := false, opId := 0
          walletInitialized := false, isWalletInitializing := false }
        false (.error "secure storage unreachable")).walletExists = some false ∧
     (checkWalletStep
        { isWorkletStarted := true, hasWalletChecked := false, walletExists := none
          walletInitError := none, initializationError := none
          hasAttemptedWalletInit := false, authErrorOccurred := false, opId := 0
          walletInitialized := false, isWalletInitializing := false }
        false (.error "secure storage unreachable")).walletInitError =
      ({ isWorkletStarted := true, hasWalletChecked := false, walletExists := none
         walletInitError := none, initializationError := none
         hasAttemptedWalletInit := false, authErrorOccurred := false, opId := 0
         walletInitialized := false, isWalletInitializing := false } : InitState).walletInitError ∧
     (checkWalletStep
        { isWorkletStarted := true, hasWalletChecked := false, walletExists := none
          walletInitError := none, initializationError := none
          hasAttemptedWalletInit := false, authErrorOccurred := false, opId := 0
          walletInitialized := false, isWalletInitializing := false }
        false (.error "secure storage unreachable")).initializationError =
      ({ isWorkletStarted := true, hasWalletChecked := false, walletExists := none
         walletInitError := none, initializationError := none
         hasAttemptedWalletInit := false, authErrorOccurred := false, opId := 0
         walletInitialized := false, isWalletInitializing := false }
        : InitState).initializationError) := by
  refine ⟨rfl, ?_⟩
  exact (checkWallet_fail_open
    { isWorkletStarted := true, hasWalletChecked := false, walletExists := none
      walletInitError := none, initializationError := none
      hasAttemptedWalletInit := false, authErrorOccurred := false, opId := 0
      walletInitialized := false, isWalletInitializing := false }
    "secure storage unreachable" .success rfl rfl).1

/-! ### C7: ordering of the balance fan-out -/

lemma shuffle_mem {α : Type} {L : List (List α)} {t : List α} (h : Shuffle L t) :
    ∀ x ∈ t, ∃ l ∈ L, x ∈ l := by
  induction h with
  | nil _ =>
    intro x hx
    simp at hx
  | take i hi hhead htail ih =>
    intro y hy
    rcases List.mem_cons.mp hy with rfl | hy
    · refine ⟨_, List.get_mem _ i hi, ?_⟩
      rw [hhead]
      exact List.mem_cons_self _ _
    · obtain ⟨l, hl, hyl⟩ := ih y hy
      rcases List.mem_or_eq_of_mem_set hl with hl | rfl
      · exact ⟨l, hl, hyl⟩
      · refine ⟨_, List.get_mem _ i hi, ?_⟩
        rw [hhead]
        exact List.mem_cons_of_mem _ hyl

lemma walletFanoutTrace_wallet {w : Nat} {tokens : List (Option String)} {t : List BEvent}
    (h : WalletFanoutTrace w tokens t) : ∀ e ∈ t, BEvent.wallet e = w := by
  intro e he
  obtain ⟨l, hl, hel⟩ := shuffle_mem h e he
  obtain ⟨tok, _, rfl⟩ := List.mem_map.mp hl
  simp [fetchEvents] at hel
  rcases hel with rfl | rfl <;> rfl

lemma shuffle_single {α : Type} (l : List α) : Shuffle [l] l := by
  induction l with
  | nil => exact Shuffle.nil (by simp)
  | cons x xs ih => exact Shuffle.take 0 (by simp) rfl ih

lemma blockIndex_lt {α : Type} (parts : List (List α)) (p : Nat)
    (hp : p < parts.flatten.length) : blockIndex parts p < parts.length := by
  induction parts generalizing p with
  | nil => simp at hp
  | cons l ls ih =>
    unfold blockIndex
    by_cases h : p < l.length
    · rw [if_pos h]
      exact Nat.succ_pos _
    · rw [if_neg h]
      have hsplit : (l :: ls).flatten.length = l.length + ls.flatten.length :=
        List.length_append l ls.flatten
      rw [hsplit] at hp
      have hlen : p - l.length < ls.flatten.length := by omega
      exact Nat.succ_lt_succ (ih (p - l.length) hlen)

lemma blockIndex_mem {α : Type} (parts : List (List α)) (p : Nat)
    (hp : p < parts.flatten.length) :
    ∃ hb : blockIndex parts p < parts.length,
      parts.flatten.get ⟨p, hp⟩ ∈ parts.get ⟨blockIndex parts p, hb⟩ := by
  induction parts generalizing p with
  | nil => simp at hp
  | cons l ls ih =>
    by_cases h : p < l.length
    · have hb0 : blockIndex (l :: ls) p = 0 := by
        simp [blockIndex, h]
      refine ⟨by rw [hb0]; exact Nat.succ_pos _, ?_⟩
      simp only [hb0]
      have hget : (l :: ls).flatten.get ⟨p, hp⟩ = l.get ⟨p, h⟩ := by
        rw [List.get_eq_getElem, List.get_eq_getElem]
        exact List.getElem_append_left h
      rw [hget]
      exact List.get_mem l p h
    · have hb : blockIndex (l :: ls) p = blockIndex ls (p - l.length) + 1 := by
        simp [blockIndex, h]
      have hsplit : (l :: ls).flatten.length = l.length + ls.flatten.length :=
        List.length_append l ls.flatten
      have hlen : p - l.length < ls.flatten.length := by
        rw [hsplit] at hp
        omega
      obtain ⟨hbtl, hmem⟩ := ih (p - l.length) hlen
      refine ⟨by rw [hb]; exact Nat.succ_lt_succ hbtl, ?_⟩
      simp only [hb]
      have hget : (l :: ls).flatten.get ⟨p, hp⟩ = ls.flatten.get ⟨p - l.length, hlen⟩ := by
        rw [List.get_eq_getElem, List.get_eq_getElem]
        exact List.getElem_append_right (Nat.le_of_not_lt h)
      rw [hget]
      exact hmem

lemma blockIndex_mono {α : Type} (parts : List (List α)) {p q : Nat} (hpq : p ≤ q) :
    blockIndex parts p ≤ blockIndex parts q := by
  induction parts generalizing p q with
  | nil => exact Nat.le_refl _
  | cons l ls ih =>
    unfold blockIndex
    by_cases hq : q < l.length
    · have hp : p < l.length := Nat.lt_of_le_of_lt hpq hq
      rw [if_pos hp, if_pos hq]
    · by_cases hp : p < l.length
      · rw [if_pos hp, if_neg hq]
        exact Nat.zero_le _
      · rw [if_neg hp, if_neg hq]
        exact Nat.succ_le_succ (ih (by omega))

lemma sorted_get_inj {ws : List Nat} (hsorted : ws.Pairwise (· < ·))
    (a b : Fin ws.length) (hab : ws.get a = ws.get b) : a.1 = b.1 := by
  rcases Nat.lt_trichotomy a.1 b.1 with h | h | h
  · have hlt := List.pairwise_iff_get.mp hsorted a b h
    rw [hab] at hlt
    exact absurd hlt (lt_irrefl _)
  · exact h
  · have hlt := List.pairwise_iff_get.mp hsorted b a h
    rw [hab] at hlt
    exact absurd hlt (lt_irrefl _)

/-- Counterexample to C7 as stated: the `Promise.all` version of
`fetchAllBalances` (cited by the claim) admits a trace for wallets `[0, 1]`
where the fetch of wallet 1 starts before the fetch of wallet 0 completes, so
an event of wallet 0 occurs at a later position than an event of wallet 1,
violating strict cross-wallet sequencing. -/
theorem fetchAllBalances_sequential_counterexample :
    FetchAllBalancesParTrace [0, 1] [none]
      [BEvent.start 1 none, BEvent.start 0 none,
       BEvent.complete 0 none, BEvent.complete 1 none] ∧
    ¬ (∀ (p q : Nat) (hp : p < 4) (hq : q < 4),
        (([BEvent.start 1 none, BEvent.start 0 none,
           BEvent.complete 0 none, BEvent.complete 1 none].get ⟨p, hp⟩).wallet = 0 →
        (([BEvent.start 1 none, BEvent.start 0 none,
           BEvent.complete 0 none, BEvent.complete 1 none].get ⟨q, hq⟩).wallet = 1 →
        p < q))) := by
  constructor
  · refine ⟨[[BEvent.start 0 none, BEvent.complete 0 none],
            [BEvent.start 1 none, BEvent.complete 1 none]], rfl, ?_, ?_⟩
    · intro k hk hw
      match k with
      | 0 => exact shuffle_single [BEvent.start 0 none, BEvent.complete 0 none]
      | 1 => exact shuffle_single [BEvent.start 1 none, BEvent.complete 1 none]
    · exact Shuffle.take 1 (by decide) rfl
        (Shuffle.take 0 (by decide) rfl
          (Shuffle.take 0 (by decide) rfl
            (Shuffle.take 1 (by decide) rfl
              (Shuffle.nil (by simp)))))
  · intro hcontra
    have := hcontra 1 0 (by decide) (by decide) rfl rfl
    exact absurd this (by decide)

/-- C7 as amended: the `for..of` version of `fetchAllBalances` is strictly
sequential across wallets - in every trace, every event of an earlier wallet
(in the ascending, duplicate-free iteration order that
`getAllWalletsFromWalletStore` produces, second conjunct) precedes every event
of a later wallet; within one wallet the per-token fetches are concurrent (an
interleaved fan-out trace exists, third conjunct); and the results of all
per-wallet, per-(network, token) fetches are aggregated regardless of
individual failures (fourth conjunct). The `Promise.all` version interleaves
wallets (see the counterexample). -/
theorem fetchAllBalances_sequential :
    (∀ (ws : List Nat) (tokens : List (Option String)) (t : List BEvent),
      ws.Pairwise (· < ·) →
      FetchAllBalancesSeqTrace ws tokens t →
      ∀ (i j : Nat) (hi : i < ws.length) (hj : j < ws.length), i < j →
      ∀ (p q : Nat) (hp : p < t.length) (hq : q < t.length),
        (t.get ⟨p, hp⟩).wallet = ws.get ⟨i, hi⟩ →
        (t.get ⟨q, hq⟩).wallet = ws.get ⟨j, hj⟩ →
        p < q) ∧
    (∀ (addresses : List (String × List (Nat × String))),
      (getAllWallets addresses).Pairwise (· < ·)) ∧
    (∀ (w : Nat) (t1 t2 : Option String),
      WalletFanoutTrace w [t1, t2]
        [BEvent.start w t1, BEvent.start w t2,
         BEvent.complete w t1, BEvent.complete w t2]) ∧
    (∀ (ws : List Nat) (pairs : List (String × Option String))
        (call : Nat → String → Option String → Except String String),
      (fetchAllBalancesResults ws pairs call).length = ws.length * pairs.length) := by
  refine ⟨?_, ?_, ?_, ?_⟩
  · intro ws tokens t hsorted hseq i j hi hj hij p q hp hq hwp hwq
    obtain ⟨parts, hlen, hparts, rfl⟩ := hseq
    obtain ⟨hbp, hmemp⟩ := blockIndex_mem parts p hp
    obtain ⟨hbq, hmemq⟩ := blockIndex_mem parts q hq
    have hbpw : blockIndex parts p < ws.length := by
      rw [← hlen]
      exact hbp
    have hbqw : blockIndex parts q < ws.length := by
      rw [← hlen]
      exact hbq
    have hwalletp : (parts.flatten.get ⟨p, hp⟩).wallet = ws.get ⟨blockIndex parts p, hbpw⟩ :=
      walletFanoutTrace_wallet (hparts (blockIndex parts p) hbp hbpw) _ hmemp
    have hwalletq : (parts.flatten.get ⟨q, hq⟩).wallet = ws.get ⟨blockIndex parts q, hbqw⟩ :=
      walletFanoutTrace_wallet (hparts (blockIndex parts q) hbq hbqw) _ hmemq
    have hpi : blockIndex parts p = i :=
      sorted_get_inj hsorted ⟨blockIndex parts p, hbpw⟩ ⟨i, hi⟩ (by rw [← hwalletp, hwp])
    have hqj : blockIndex parts q = j :=
      sorted_get_inj hsorted ⟨blockIndex parts q, hbqw⟩ ⟨j, hj⟩ (by rw [← hwalletq, hwq])
    by_contra hpq
    have hqp : q ≤ p := Nat.le_of_not_lt hpq
    have := blockIndex_mono parts hqp
    rw [hpi, hqj] at this
    omega
  · intro addresses
    have hsorted : (getAllWallets addresses).Sorted (· ≤ ·) :=
      List.sorted_insertionSort (· ≤ ·) _
    have hnodup : (getAllWallets addresses).Nodup :=
      (List.perm_insertionSort (· ≤ ·) _).nodup_iff.mpr (List.nodup_dedup _)
    exact (hsorted.and hnodup).imp (fun h => lt_of_le_of_ne h.1 h.2)
  · intro w t1 t2
    exact Shuffle.take 0 (by simp) rfl
      (Shuffle.take 1 (by simp) rfl
        (Shuffle.take 0 (by simp) rfl
          (Shuffle.take 1 (by simp) rfl
            (Shuffle.nil (by simp)))))
  · intro ws pairs call
    induction ws with
    | nil => simp [fetchAllBalancesResults]
    | cons w rest ih =>
      have hsplit : fetchAllBalancesResults (w :: rest) pairs call =
          (pairs.map (fun nt =>
            (fetchBalanceInternal true {} nt.fst w nt.snd (call w nt.fst nt.snd) 0).fst)) ++
          fetchAllBalancesResults rest pairs call := rfl
      rw [hsplit, List.length_append, List.length_map, ih, List.length_cons]
      ring

/-- Witness for C7 (amended) at a concrete two-wallet sequential trace. -/
theorem fetchAllBalances_sequential_witness :
    ([0, 1] : List Nat).Pairwise (· < ·) ∧
    FetchAllBalancesSeqTrace [0, 1] [none]
      [BEvent.start 0 none, BEvent.complete 0 none,
       BEvent.start 1 none, BEvent.complete 1 none] ∧
    (0 : Nat) < 2 := by
  have hseq : FetchAllBalancesSeqTrace [0, 1] [none]
      [BEvent.start 0 none, BEvent.complete 0 none,
       BEvent.start 1 none, BEvent.complete 1 none] := by
    refine ⟨[[BEvent.start 0 none, BEvent.complete 0 none],
            [BEvent.start 1 none, BEvent.complete 1 none]], rfl, ?_, rfl⟩
    intro k hk hw
    match k with
    | 0 => exact shuffle_single [BEvent.start 0 none, BEvent.complete 0 none]
    | 1 => exact shuffle_single [BEvent.start 1 none, BEvent.complete 1 none]
  refine ⟨by decide, hseq, ?_⟩
  exact fetchAllBalances_sequential.1 [0, 1] [none]
    [BEvent.start 0 none, BEvent.complete 0 none,
     BEvent.start 1 none, BEvent.complete 1 none]
    (by decide) hseq 0 1 (by decide) (by decide) (by decide)
    0 2 (by decide) (by decide) rfl rfl

end Wdk
